import Mathlib

/-!
# Shallow embedding of the build-pipe orchestrator

This file embeds `src/extensions/builder/build-pipe.ts` (class `BuildPipe`)
as pure Lean functions and proves properties of the embedded code.

Modelling decisions:
* Hooks are effectful in TypeScript; here a task's `execute` hook is modelled
  by the `BuildTaskResult` value it returns (`executeResult`), and the presence
  of the optional `preBuild` / `postBuild` hooks by booleans.  Hook
  invocations and artifact-generator invocations are recorded in an event
  trace indexed by queue position.
* Wall-clock timestamps (`Date.now()`, `process.hrtime()`) are external
  effects with no influence on control flow; they are modelled as `0`.
* Logging calls (`Logger`, `LongProcessLogger`) have no influence on control
  flow and are dropped.
* A thrown `Error` (the missing-build-context case) is modelled with
  `Except String`; the trace of events emitted before the throw is kept.
* `BuildTaskHelper.serializeId` / `deserializeId` live in `build-task.ts`,
  which is not among the sampled sources; they are modelled from the spec
  (section 4.1) as a colon-separated codec.
-/

namespace BuildPipe

/-- A single component's build outcome (`ComponentResult` of `types.ts`).
`errors` is optional in TypeScript (`errors?: []`), hence `Option`. -/
structure ComponentResult where
  componentId : String
  errors : Option (List String)
deriving DecidableEq, Repr

/-- What a task's `execute` hook returns: per-component results plus the
optional artifact definitions (`buildTaskResult.artifacts`). Artifact
definitions are opaque to the orchestrator; modelled as strings. -/
structure BuildTaskResult where
  componentsResults : List ComponentResult
  artifacts : Option (List String)
deriving DecidableEq, Repr

/-- A build task (`BuildTask` of `build-task.ts`, as used by `build-pipe.ts`):
identity (`aspectId`, optional `name`), optional `description`, optional
`dependencies` (serialized task ids), whether the optional `preBuild` /
`postBuild` hooks are present, and the value its `execute` hook returns. -/
structure BuildTask where
  aspectId : String
  name : Option String := none
  description : Option String := none
  dependencies : Option (List String) := none
  hasPreBuild : Bool := false
  hasPostBuild : Bool := false
  executeResult : BuildTaskResult
deriving DecidableEq, Repr

/-- An environment descriptor; only its `id` is read by `build-pipe.ts`. -/
structure EnvDefinition where
  id : String
deriving DecidableEq, Repr

/-- One `(task, env)` pair of the `TasksQueue`. -/
structure QueueEntry where
  task : BuildTask
  env : EnvDefinition
deriving DecidableEq, Repr

/-- The per-environment build context; its contents are opaque to the
orchestrator (it is only threaded into hooks and the artifact factory). -/
structure BuildContext where
  envId : String
deriving DecidableEq, Repr

/-- The `EnvsBuildContext` registry: environment id to build context. -/
abbrev EnvsBuildContext := String → Option BuildContext

/-- `artifactFactory.generate(context, defs, task)`: opaque collaborator,
modelled as a function parameter returning a per-component artifact map. -/
abbrev ArtifactGen := BuildContext → List String → BuildTask → List (String × List String)

/-- The per-task result record (`TaskResults` of `build-pipe.ts`).
`artifacts` is `none` exactly when the task finished with errors. -/
structure TaskResults where
  task : BuildTask
  env : EnvDefinition
  componentsResults : List ComponentResult
  artifacts : Option (List (String × List String))
  startTime : Nat
  endTime : Nat
deriving DecidableEq, Repr

/-- Observable hook / collaborator invocations, tagged with the queue index
of the entry that triggered them. -/
inductive Event where
  | preBuildHook : Nat → Event
  | executeHook : Nat → Event
  | generateCall : Nat → Event
  | postBuildHook : Nat → Event
deriving DecidableEq, Repr

/-- The queue index an event is tagged with. -/
def Event.idx : Event → Nat
  | .preBuildHook j => j
  | .executeHook j => j
  | .generateCall j => j
  | .postBuildHook j => j

/-- A task identifier: owning aspect id plus optional task name. -/
structure TaskId where
  aspectId : String
  name : Option String
deriving DecidableEq, Repr

/-- Modelled from the spec: `BuildTaskHelper.serializeId` of `build-task.ts`
is not among the sampled sources. Spec section 4.1: canonical string encoding
of an aspect id with an optional name, using a reserved separator (the spec's
examples `A:other-name`, `owner:x` use a colon). -/
def TaskId.serialize (id : TaskId) : String :=
  match id.name with
  | some n => id.aspectId ++ ":" ++ n
  | none => id.aspectId

/-- Character-level split at the first separator, the helper for
`deserializeId`. -/
def deserializeChars : List Char → List Char × Option (List Char)
  | [] => ([], none)
  | c :: cs =>
    if c = ':' then ([], some cs)
    else
      let r := deserializeChars cs
      (c :: r.1, r.2)

/-- Modelled from the spec: `BuildTaskHelper.deserializeId` of
`build-task.ts` is not among the sampled sources. Spec section 4.1: inverse
of `TaskId.serialize` on canonical strings — everything before the first
colon is the aspect id; the part after it, when present, is the name. -/
def deserializeId (s : String) : TaskId :=
  let r := deserializeChars s.data
  ⟨String.mk r.1, r.2.map String.mk⟩

/-- The find-callback of `updateFailedDependencyTask`:
`if (name && name !== failedTask.name) return false;
 return aspectId === failedTask.aspectId;`
(`name &&` is JavaScript truthiness: `undefined` and `""` are falsy). -/
def depMatchesFailed (dep : String) (failedTask : BuildTask) : Bool :=
  let d := deserializeId dep
  let truthy := match d.name with
    | none => false
    | some n => n != ""
  if truthy && d.name != failedTask.name then false
  else d.aspectId == failedTask.aspectId

/-- The run-scoped mutable fields of the `BuildPipe` instance:
`failedTasks` (push-ordered) and `failedDependencyTask`. -/
structure PipeState where
  failedTasks : List BuildTask
  failedDependencyTask : Option BuildTask
deriving DecidableEq, Repr

/-- The fields' initializers: `failedTasks = []`, no recorded cause. -/
def initState : PipeState := ⟨[], none⟩

/-- `updateFailedDependencyTask(task)`: when no cause is recorded, some task
has failed and the task declares dependencies, iterate the dependencies with
`forEach`, each iteration overwriting `failedDependencyTask` with
`failedTasks.find(...)` for that dependency (the overwrite may store
`undefined` again). The fold ignores its accumulator exactly as the
assignment inside `forEach` does. -/
def updateFailedDependencyTask (st : PipeState) (task : BuildTask) : PipeState :=
  if st.failedDependencyTask = none ∧ st.failedTasks ≠ [] ∧ task.dependencies ≠ none then
    { st with
      failedDependencyTask :=
        (task.dependencies.getD []).foldl
          (fun _ dep => st.failedTasks.find? (fun ft => depMatchesFailed dep ft))
          st.failedDependencyTask }
  else st

/-- `shouldSkipTask`: skip exactly when a cascading-failure cause is
recorded (the `taskId`/`envId` arguments are only used for the warning
log, which is dropped). -/
def shouldSkipTask (st : PipeState) : Bool :=
  st.failedDependencyTask.isSome

/-- `getBuildContext(envId)`: registry lookup, throwing when absent. -/
def getBuildContext (registry : EnvsBuildContext) (envId : String) :
    Except String BuildContext :=
  match registry envId with
  | some ctx => Except.ok ctx
  | none => Except.error ("unable to find buildContext for " ++ envId)

/-- The filter predicate `(c) => c.errors?.length` of `executeTask`:
an absent `errors` is `undefined` (falsy) and an empty list has length `0`
(falsy), so a component fails only with a present, non-empty `errors`. -/
def compFailing (c : ComponentResult) : Bool :=
  match c.errors with
  | none => false
  | some l => l.length != 0

/-- `executeTask(task, env)` at queue index `i`: update the cascading cause,
decide skipping, then resolve the context, run `execute`, classify, and
generate artifacts on success. Returns the events it emitted and either the
thrown error or the updated state plus `TaskResults | null`. -/
def executeTask (gen : ArtifactGen) (registry : EnvsBuildContext) (i : Nat)
    (st : PipeState) (e : QueueEntry) :
    List Event × Except String (PipeState × Option TaskResults) :=
  let st1 := updateFailedDependencyTask st e.task
  if shouldSkipTask st1 then
    ([], Except.ok (st1, none))
  else
    match getBuildContext registry e.env.id with
    | Except.error msg => ([], Except.error msg)
    | Except.ok ctx =>
      let buildTaskResult := e.task.executeResult
      let compsWithErrors := buildTaskResult.componentsResults.filter compFailing
      if compsWithErrors ≠ [] then
        ([Event.executeHook i],
          Except.ok ({ st1 with failedTasks := st1.failedTasks ++ [e.task] },
            some { task := e.task, env := e.env,
                   componentsResults := buildTaskResult.componentsResults,
                   artifacts := none, startTime := 0, endTime := 0 }))
      else
        ([Event.executeHook i, Event.generateCall i],
          Except.ok (st1,
            some { task := e.task, env := e.env,
                   componentsResults := buildTaskResult.componentsResults,
                   artifacts := some (gen ctx (buildTaskResult.artifacts.getD []) e.task),
                   startTime := 0, endTime := 0 }))

/-- The main sequential loop (`Bluebird.mapSeries` over the queue calling
`executeTask`), threading the pipe state and collecting the
`TaskResults | null` of every entry in order. -/
def runMain (gen : ArtifactGen) (registry : EnvsBuildContext) :
    Nat → PipeState → List QueueEntry →
    List Event × Except String (PipeState × List (Option TaskResults))
  | _, st, [] => ([], Except.ok (st, []))
  | i, st, e :: rest =>
    match executeTask gen registry i st e with
    | (ev, Except.error msg) => (ev, Except.error msg)
    | (ev, Except.ok (st1, r)) =>
      match runMain gen registry (i + 1) st1 rest with
      | (evs, Except.error msg) => (ev ++ evs, Except.error msg)
      | (evs, Except.ok (stF, rs)) => (ev ++ evs, Except.ok (stF, r :: rs))

/-- `executePreBuild()`: iterate the queue in order; entries without a
`preBuild` hook are passed over without touching the registry; for the
others the context is resolved (throwing when absent) and the hook invoked. -/
def executePreBuild (registry : EnvsBuildContext) :
    Nat → List QueueEntry → List Event × Except String Unit
  | _, [] => ([], Except.ok ())
  | i, e :: rest =>
    if e.task.hasPreBuild then
      match getBuildContext registry e.env.id with
      | Except.error msg => ([], Except.error msg)
      | Except.ok _ =>
        let r := executePreBuild registry (i + 1) rest
        (Event.preBuildHook i :: r.1, r.2)
    else executePreBuild registry (i + 1) rest

/-- `executePostBuild(tasksResults)`: same traversal with the `postBuild`
hook (the results list is passed to the hook, whose body is opaque here). -/
def executePostBuild (registry : EnvsBuildContext) :
    Nat → List QueueEntry → List Event × Except String Unit
  | _, [] => ([], Except.ok ())
  | i, e :: rest =>
    if e.task.hasPostBuild then
      match getBuildContext registry e.env.id with
      | Except.error msg => ([], Except.error msg)
      | Except.ok _ =>
        let r := executePostBuild registry (i + 1) rest
        (Event.postBuildHook i :: r.1, r.2)
    else executePostBuild registry (i + 1) rest

/-- `execute()`: pre-build phase, main loop from the initial state,
`compact(results)` (dropping the `null`s of skipped entries), post-build
phase, and the returned results list. -/
def execute (gen : ArtifactGen) (registry : EnvsBuildContext)
    (queue : List QueueEntry) : List Event × Except String (List TaskResults) :=
  match executePreBuild registry 0 queue with
  | (ev1, Except.error msg) => (ev1, Except.error msg)
  | (ev1, Except.ok ()) =>
    match runMain gen registry 0 initState queue with
    | (ev2, Except.error msg) => (ev1 ++ ev2, Except.error msg)
    | (ev2, Except.ok (_, optResults)) =>
      let results := optResults.reduceOption
      match executePostBuild registry 0 queue with
      | (ev3, Except.error msg) => (ev1 ++ ev2 ++ ev3, Except.error msg)
      | (ev3, Except.ok ()) => (ev1 ++ ev2 ++ ev3, Except.ok results)

end BuildPipe

namespace BuildPipe

/-! ## Computation rules for `executeTask` -/

/-- When the cause is already recorded before the entry,
`updateFailedDependencyTask` leaves the state untouched. -/
theorem updateFailed_cause_some {st : PipeState} {c : BuildTask} (t : BuildTask)
    (h : st.failedDependencyTask = some c) :
    updateFailedDependencyTask st t = st := by
  unfold updateFailedDependencyTask
  simp [h]

/-- Skip branch: a recorded cause after the dependency scan yields no
events, no result and no registry access. -/
theorem executeTask_skip (gen : ArtifactGen) (reg : EnvsBuildContext) (i : Nat)
    (st : PipeState) (e : QueueEntry)
    (h : (updateFailedDependencyTask st e.task).failedDependencyTask.isSome) :
    executeTask gen reg i st e =
      ([], Except.ok (updateFailedDependencyTask st e.task, none)) := by
  unfold executeTask shouldSkipTask
  simp [h]

/-- Missing-context branch: no recorded cause and an absent environment id
throw before the execute hook. -/
theorem executeTask_missing (gen : ArtifactGen) (reg : EnvsBuildContext) (i : Nat)
    (st : PipeState) (e : QueueEntry)
    (h1 : (updateFailedDependencyTask st e.task).failedDependencyTask = none)
    (h2 : reg e.env.id = none) :
    executeTask gen reg i st e =
      ([], Except.error ("unable to find buildContext for " ++ e.env.id)) := by
  unfold executeTask shouldSkipTask getBuildContext
  simp [h1, h2]

/-- Failure branch: some component has a non-empty error list, so the task
joins the failed set and its result carries no artifacts. -/
theorem executeTask_fail (gen : ArtifactGen) (reg : EnvsBuildContext) (i : Nat)
    (st : PipeState) (e : QueueEntry) (ctx : BuildContext)
    (h1 : (updateFailedDependencyTask st e.task).failedDependencyTask = none)
    (h2 : reg e.env.id = some ctx)
    (h3 : e.task.executeResult.componentsResults.filter compFailing ≠ []) :
    executeTask gen reg i st e =
      ([Event.executeHook i],
        Except.ok
          ({ updateFailedDependencyTask st e.task with
              failedTasks := (updateFailedDependencyTask st e.task).failedTasks ++ [e.task] },
            some { task := e.task, env := e.env,
                   componentsResults := e.task.executeResult.componentsResults,
                   artifacts := none, startTime := 0, endTime := 0 })) := by
  unfold executeTask shouldSkipTask getBuildContext
  simp [h1, h2, h3]

/-- Success branch: no failing component, so the artifact generator runs and
its output is recorded. -/
theorem executeTask_success (gen : ArtifactGen) (reg : EnvsBuildContext) (i : Nat)
    (st : PipeState) (e : QueueEntry) (ctx : BuildContext)
    (h1 : (updateFailedDependencyTask st e.task).failedDependencyTask = none)
    (h2 : reg e.env.id = some ctx)
    (h3 : e.task.executeResult.componentsResults.filter compFailing = []) :
    executeTask gen reg i st e =
      ([Event.executeHook i, Event.generateCall i],
        Except.ok (updateFailedDependencyTask st e.task,
          some { task := e.task, env := e.env,
                 componentsResults := e.task.executeResult.componentsResults,
                 artifacts := some (gen ctx (e.task.executeResult.artifacts.getD []) e.task),
                 startTime := 0, endTime := 0 })) := by
  unfold executeTask shouldSkipTask getBuildContext
  simp [h1, h2, h3]

end BuildPipe

namespace BuildPipe

/-- `updateFailedDependencyTask` never touches the failed-task set. -/
theorem updateFailed_failedTasks (st : PipeState) (t : BuildTask) :
    (updateFailedDependencyTask st t).failedTasks = st.failedTasks := by
  unfold updateFailedDependencyTask
  split <;> rfl

/-- Inversion for a non-throwing `executeTask` step: how the state moves,
what shape a produced result has, and the skip condition. -/
theorem executeTask_ok_inv {gen : ArtifactGen} {reg : EnvsBuildContext} {i : Nat}
    {st : PipeState} {e : QueueEntry} {ev : List Event} {st' : PipeState}
    {r : Option TaskResults}
    (h : executeTask gen reg i st e = (ev, Except.ok (st', r))) :
    st'.failedDependencyTask = (updateFailedDependencyTask st e.task).failedDependencyTask ∧
    (st'.failedTasks = st.failedTasks ∨ st'.failedTasks = st.failedTasks ++ [e.task]) ∧
    (∀ res, r = some res → res.task = e.task ∧ res.env = e.env ∧
      res.componentsResults = e.task.executeResult.componentsResults) ∧
    (r = none ↔ (updateFailedDependencyTask st e.task).failedDependencyTask.isSome) := by
  by_cases h1 : (updateFailedDependencyTask st e.task).failedDependencyTask.isSome
  · rw [executeTask_skip gen reg i st e h1] at h
    simp only [Prod.mk.injEq, Except.ok.injEq] at h
    obtain ⟨rfl, rfl, rfl⟩ := h
    refine ⟨rfl, Or.inl (updateFailed_failedTasks st e.task), ?_, by simp [h1]⟩
    intro res hres
    exact absurd hres (by simp)
  · rw [Option.not_isSome_iff_eq_none] at h1
    cases hreg : reg e.env.id with
    | none =>
      rw [executeTask_missing gen reg i st e h1 hreg] at h
      exact absurd (congrArg Prod.snd h) (by simp)
    | some ctx =>
      by_cases h3 : e.task.executeResult.componentsResults.filter compFailing = []
      · rw [executeTask_success gen reg i st e ctx h1 hreg h3] at h
        simp only [Prod.mk.injEq, Except.ok.injEq] at h
        obtain ⟨rfl, rfl, rfl⟩ := h
        refine ⟨rfl, Or.inl (updateFailed_failedTasks st e.task), ?_, by simp [h1]⟩
        intro res hres
        cases Option.some.inj hres
        exact ⟨rfl, rfl, rfl⟩
      · rw [executeTask_fail gen reg i st e ctx h1 hreg h3] at h
        simp only [Prod.mk.injEq, Except.ok.injEq] at h
        obtain ⟨rfl, rfl, rfl⟩ := h
        refine ⟨h1 ▸ rfl, Or.inr (by rw [updateFailed_failedTasks]), ?_, by simp [h1]⟩
        intro res hres
        cases Option.some.inj hres
        exact ⟨rfl, rfl, rfl⟩

/-- Every event emitted by one `executeTask` step carries that step's queue
index. -/
theorem executeTask_event_idx (gen : ArtifactGen) (reg : EnvsBuildContext) (i : Nat)
    (st : PipeState) (e : QueueEntry) :
    ∀ ev ∈ (executeTask gen reg i st e).1, Event.idx ev = i := by
  intro ev hev
  by_cases h1 : (updateFailedDependencyTask st e.task).failedDependencyTask.isSome
  · rw [executeTask_skip gen reg i st e h1] at hev
    simp at hev
  · rw [Option.not_isSome_iff_eq_none] at h1
    cases hreg : reg e.env.id with
    | none =>
      rw [executeTask_missing gen reg i st e h1 hreg] at hev
      simp at hev
    | some ctx =>
      by_cases h3 : e.task.executeResult.componentsResults.filter compFailing = []
      · rw [executeTask_success gen reg i st e ctx h1 hreg h3] at hev
        simp at hev
        rcases hev with rfl | rfl <;> rfl
      · rw [executeTask_fail gen reg i st e ctx h1 hreg h3] at hev
        simp at hev
        subst hev
        rfl

/-! ## Unfolding and inversion for the main loop -/

/-- One-step unfolding of `runMain` on a non-empty queue. -/
theorem runMain_cons (gen : ArtifactGen) (reg : EnvsBuildContext) (i : Nat)
    (st : PipeState) (e : QueueEntry) (rest : List QueueEntry) :
    runMain gen reg i st (e :: rest) =
      match executeTask gen reg i st e with
      | (ev, Except.error msg) => (ev, Except.error msg)
      | (ev, Except.ok (st1, r)) =>
        match runMain gen reg (i + 1) st1 rest with
        | (evs, Except.error msg) => (ev ++ evs, Except.error msg)
        | (evs, Except.ok (stF, rs)) => (ev ++ evs, Except.ok (stF, r :: rs)) := rfl

/-- `runMain` propagates an error thrown by the head entry. -/
theorem runMain_cons_error {gen : ArtifactGen} {reg : EnvsBuildContext} {i : Nat}
    {st : PipeState} {e : QueueEntry} (rest : List QueueEntry) {ev0 : List Event}
    {msg : String} (hE : executeTask gen reg i st e = (ev0, Except.error msg)) :
    runMain gen reg i st (e :: rest) = (ev0, Except.error msg) := by
  rw [runMain_cons, hE]

/-- `runMain` propagates an error thrown by a later entry. -/
theorem runMain_cons_ok_error {gen : ArtifactGen} {reg : EnvsBuildContext} {i : Nat}
    {st : PipeState} {e : QueueEntry} {rest : List QueueEntry} {ev0 evs : List Event}
    {st1 : PipeState} {r : Option TaskResults} {msg : String}
    (hE : executeTask gen reg i st e = (ev0, Except.ok (st1, r)))
    (hR : runMain gen reg (i + 1) st1 rest = (evs, Except.error msg)) :
    runMain gen reg i st (e :: rest) = (ev0 ++ evs, Except.error msg) := by
  rw [runMain_cons, hE]
  dsimp only
  rw [hR]

/-- `runMain` on a non-empty queue, fully successful case. -/
theorem runMain_cons_ok_ok {gen : ArtifactGen} {reg : EnvsBuildContext} {i : Nat}
    {st : PipeState} {e : QueueEntry} {rest : List QueueEntry} {ev0 evs : List Event}
    {st1 stF : PipeState} {r : Option TaskResults} {rs : List (Option TaskResults)}
    (hE : executeTask gen reg i st e = (ev0, Except.ok (st1, r)))
    (hR : runMain gen reg (i + 1) st1 rest = (evs, Except.ok (stF, rs))) :
    runMain gen reg i st (e :: rest) = (ev0 ++ evs, Except.ok (stF, r :: rs)) := by
  rw [runMain_cons, hE]
  dsimp only
  rw [hR]

/-- Inversion of a successful `runMain` on a non-empty queue. -/
theorem runMain_cons_ok_inv {gen : ArtifactGen} {reg : EnvsBuildContext} {i : Nat}
    {st : PipeState} {e : QueueEntry} {rest : List QueueEntry} {ev : List Event}
    {stF : PipeState} {rs : List (Option TaskResults)}
    (h : runMain gen reg i st (e :: rest) = (ev, Except.ok (stF, rs))) :
    ∃ ev0 st1 r evs rs1,
      executeTask gen reg i st e = (ev0, Except.ok (st1, r)) ∧
      runMain gen reg (i + 1) st1 rest = (evs, Except.ok (stF, rs1)) ∧
      ev = ev0 ++ evs ∧ rs = r :: rs1 := by
  rcases hE : executeTask gen reg i st e with ⟨ev0, res0⟩
  cases res0 with
  | error msg =>
    rw [runMain_cons_error rest hE] at h
    exact absurd (congrArg Prod.snd h) (by simp)
  | ok p =>
    obtain ⟨st1, r⟩ := p
    rcases hR : runMain gen reg (i + 1) st1 rest with ⟨evs, res1⟩
    cases res1 with
    | error msg =>
      rw [runMain_cons_ok_error hE hR] at h
      exact absurd (congrArg Prod.snd h) (by simp)
    | ok p2 =>
      obtain ⟨stF1, rs1⟩ := p2
      rw [runMain_cons_ok_ok hE hR] at h
      simp only [Prod.mk.injEq, Except.ok.injEq] at h
      obtain ⟨rfl, rfl, rfl⟩ := h
      exact ⟨ev0, st1, r, evs, rs1, rfl, hR, rfl, rfl⟩

/-! ## Invariants of the main loop -/

/-- Across a successful main loop, the failed-task set only grows and a
recorded cascading-failure cause is never replaced. -/
theorem runMain_ok_state (gen : ArtifactGen) (reg : EnvsBuildContext) :
    ∀ (q : List QueueEntry) (i : Nat) (st : PipeState) (ev : List Event)
      (stF : PipeState) (rs : List (Option TaskResults)),
    runMain gen reg i st q = (ev, Except.ok (stF, rs)) →
    (∀ t ∈ st.failedTasks, t ∈ stF.failedTasks) ∧
    (∀ c, st.failedDependencyTask = some c → stF.failedDependencyTask = some c) := by
  intro q
  induction q with
  | nil =>
    intro i st ev stF rs h
    simp only [runMain, Prod.mk.injEq, Except.ok.injEq] at h
    obtain ⟨-, rfl, -⟩ := h
    exact ⟨fun t ht => ht, fun c hc => hc⟩
  | cons e rest ih =>
    intro i st ev stF rs h
    obtain ⟨ev0, st1, r, evs, rs1, hE, hR, rfl, rfl⟩ := runMain_cons_ok_inv h
    obtain ⟨hcause, hfailed, -, -⟩ := executeTask_ok_inv hE
    obtain ⟨ihf, ihc⟩ := ih (i + 1) st1 evs stF rs1 hR
    constructor
    · intro t ht
      apply ihf
      rcases hfailed with hf | hf <;> rw [hf]
      · exact ht
      · exact List.mem_append_left _ ht
    · intro c hc
      apply ihc
      rw [hcause, updateFailed_cause_some e.task hc, hc]

/-- The main loop returns one entry (`TaskResults | null`) per queue entry,
in queue order, and each produced record carries that entry's task,
environment and component results. -/
theorem runMain_ok_entries (gen : ArtifactGen) (reg : EnvsBuildContext) :
    ∀ (q : List QueueEntry) (i : Nat) (st : PipeState) (ev : List Event)
      (stF : PipeState) (rs : List (Option TaskResults)),
    runMain gen reg i st q = (ev, Except.ok (stF, rs)) →
    List.Forall₂ (fun (o : Option TaskResults) (e : QueueEntry) =>
      ∀ res, o = some res → res.task = e.task ∧ res.env = e.env ∧
        res.componentsResults = e.task.executeResult.componentsResults) rs q := by
  intro q
  induction q with
  | nil =>
    intro i st ev stF rs h
    simp only [runMain, Prod.mk.injEq, Except.ok.injEq] at h
    obtain ⟨-, -, rfl⟩ := h
    exact List.Forall₂.nil
  | cons e rest ih =>
    intro i st ev stF rs h
    obtain ⟨ev0, st1, r, evs, rs1, hE, hR, rfl, rfl⟩ := runMain_cons_ok_inv h
    obtain ⟨-, -, hres, -⟩ := executeTask_ok_inv hE
    exact List.Forall₂.cons hres (ih (i + 1) st1 evs stF rs1 hR)

/-- Every event emitted by the main loop started at index `i` on queue `q`
has an index in `[i, i + q.length)`. -/
theorem runMain_event_idx (gen : ArtifactGen) (reg : EnvsBuildContext) :
    ∀ (q : List QueueEntry) (i : Nat) (st : PipeState),
    ∀ ev ∈ (runMain gen reg i st q).1, i ≤ Event.idx ev ∧ Event.idx ev < i + q.length := by
  intro q
  induction q with
  | nil =>
    intro i st ev hev
    simp [runMain] at hev
  | cons e rest ih =>
    intro i st ev hev
    rcases hE : executeTask gen reg i st e with ⟨ev0, res0⟩
    have hidx0 : ∀ x ∈ ev0, Event.idx x = i := by
      intro x hx
      exact executeTask_event_idx gen reg i st e x (hE ▸ hx)
    cases res0 with
    | error msg =>
      rw [runMain_cons_error rest hE] at hev
      rw [hidx0 ev hev]
      simp
    | ok p =>
      obtain ⟨st1, r⟩ := p
      rcases hR : runMain gen reg (i + 1) st1 rest with ⟨evs, res1⟩
      have hmem : ev ∈ ev0 ++ evs := by
        cases res1 with
        | error msg => rw [runMain_cons_ok_error hE hR] at hev; exact hev
        | ok p2 =>
          obtain ⟨stF, rs⟩ := p2
          rw [runMain_cons_ok_ok hE hR] at hev
          exact hev
      rcases List.mem_append.mp hmem with h0 | h1
      · rw [hidx0 ev h0]
        simp
      · have := ih (i + 1) st1 ev (by rw [hR]; exact h1)
        have hlen : (e :: rest).length = rest.length + 1 := rfl
        omega

/-- A successful prefix followed by an immediately-erroring continuation:
the whole loop returns the prefix events and the error. -/
theorem runMain_append_error (gen : ArtifactGen) (reg : EnvsBuildContext) :
    ∀ (q1 : List QueueEntry) (q2 : List QueueEntry) (i : Nat) (st : PipeState)
      (ev1 : List Event) (st1 : PipeState) (rs1 : List (Option TaskResults)) (msg : String),
    runMain gen reg i st q1 = (ev1, Except.ok (st1, rs1)) →
    runMain gen reg (i + q1.length) st1 q2 = ([], Except.error msg) →
    runMain gen reg i st (q1 ++ q2) = (ev1, Except.error msg) := by
  intro q1
  induction q1 with
  | nil =>
    intro q2 i st ev1 st1 rs1 msg h1 h2
    simp only [runMain, Prod.mk.injEq, Except.ok.injEq] at h1
    obtain ⟨rfl, rfl, -⟩ := h1
    simpa using h2
  | cons e rest ih =>
    intro q2 i st ev1 st1 rs1 msg h1 h2
    obtain ⟨ev0, stm, r, evs, rsm, hE, hR, rfl, rfl⟩ := runMain_cons_ok_inv h1
    have h2' : runMain gen reg (i + 1 + rest.length) st1 q2 = ([], Except.error msg) := by
      have harith : i + 1 + rest.length = i + (e :: rest).length := by
        simp [List.length_cons]
        omega
      rw [harith]
      exact h2
    have htail := ih q2 (i + 1) stm evs st1 rsm msg hR h2'
    exact runMain_cons_ok_error hE htail

/-! ## Pre-build phase lemmas -/

/-- Every event of the pre-build phase is a `preBuild` hook invocation. -/
theorem executePreBuild_events (reg : EnvsBuildContext) :
    ∀ (q : List QueueEntry) (i : Nat),
    ∀ ev ∈ (executePreBuild reg i q).1, ∃ j, ev = Event.preBuildHook j := by
  intro q
  induction q with
  | nil =>
    intro i ev hev
    simp [executePreBuild] at hev
  | cons e rest ih =>
    intro i ev hev
    by_cases hp : e.task.hasPreBuild
    · rw [executePreBuild, if_pos hp] at hev
      cases hctx : getBuildContext reg e.env.id with
      | error msg =>
        rw [hctx] at hev
        simp at hev
      | ok ctx =>
        rw [hctx] at hev
        simp only [List.mem_cons] at hev
        rcases hev with rfl | h
        · exact ⟨i, rfl⟩
        · exact ih (i + 1) ev h
    · rw [executePreBuild, if_neg hp] at hev
      exact ih (i + 1) ev hev

/-- The pre-build phase succeeds whenever every entry that actually defines
a `preBuild` hook has its environment in the registry; entries without the
hook never touch the registry. -/
theorem executePreBuild_ok (reg : EnvsBuildContext) :
    ∀ (q : List QueueEntry) (i : Nat),
    (∀ e ∈ q, e.task.hasPreBuild = true → reg e.env.id ≠ none) →
    (executePreBuild reg i q).2 = Except.ok () := by
  intro q
  induction q with
  | nil =>
    intro i _
    rfl
  | cons e rest ih =>
    intro i hq
    by_cases hp : e.task.hasPreBuild
    · cases hreg : reg e.env.id with
      | none => exact absurd hreg (hq e (List.mem_cons_self e rest) hp)
      | some ctx =>
        have hctx : getBuildContext reg e.env.id = Except.ok ctx := by
          unfold getBuildContext
          rw [hreg]
        rw [executePreBuild, if_pos hp, hctx]
        exact ih (i + 1) (fun x hx => hq x (List.mem_cons_of_mem e hx))
    · rw [executePreBuild, if_neg hp]
      exact ih (i + 1) (fun x hx => hq x (List.mem_cons_of_mem e hx))

/-- Same statement for the post-build phase. -/
theorem executePostBuild_ok (reg : EnvsBuildContext) :
    ∀ (q : List QueueEntry) (i : Nat),
    (∀ e ∈ q, e.task.hasPostBuild = true → reg e.env.id ≠ none) →
    (executePostBuild reg i q).2 = Except.ok () := by
  intro q
  induction q with
  | nil =>
    intro i _
    rfl
  | cons e rest ih =>
    intro i hq
    by_cases hp : e.task.hasPostBuild
    · cases hreg : reg e.env.id with
      | none => exact absurd hreg (hq e (List.mem_cons_self e rest) hp)
      | some ctx =>
        have hctx : getBuildContext reg e.env.id = Except.ok ctx := by
          unfold getBuildContext
          rw [hreg]
        rw [executePostBuild, if_pos hp, hctx]
        exact ih (i + 1) (fun x hx => hq x (List.mem_cons_of_mem e hx))
    · rw [executePostBuild, if_neg hp]
      exact ih (i + 1) (fun x hx => hq x (List.mem_cons_of_mem e hx))

/-! ## Whole-run inversion -/

/-- Inversion of a successful `execute()`: all three phases succeeded and
the returned list is the compaction of the main loop's per-entry results. -/
theorem execute_ok_inv {gen : ArtifactGen} {reg : EnvsBuildContext}
    {queue : List QueueEntry} {ev : List Event} {results : List TaskResults}
    (h : execute gen reg queue = (ev, Except.ok results)) :
    ∃ ev1 ev2 ev3 stF optResults,
      executePreBuild reg 0 queue = (ev1, Except.ok ()) ∧
      runMain gen reg 0 initState queue = (ev2, Except.ok (stF, optResults)) ∧
      executePostBuild reg 0 queue = (ev3, Except.ok ()) ∧
      results = optResults.reduceOption ∧ ev = ev1 ++ ev2 ++ ev3 := by
  unfold execute at h
  rcases h1 : executePreBuild reg 0 queue with ⟨ev1, res1⟩
  rw [h1] at h
  cases res1 with
  | error msg => exact absurd (congrArg Prod.snd h) (by simp)
  | ok u =>
    obtain rfl : u = () := rfl
    rcases h2 : runMain gen reg 0 initState queue with ⟨ev2, res2⟩
    rw [h2] at h
    cases res2 with
    | error msg => exact absurd (congrArg Prod.snd h) (by simp)
    | ok p =>
      obtain ⟨stF, optResults⟩ := p
      rcases h3 : executePostBuild reg 0 queue with ⟨ev3, res3⟩
      rw [h3] at h
      cases res3 with
      | error msg => exact absurd (congrArg Prod.snd h) (by simp)
      | ok u2 =>
        obtain rfl : u2 = () := rfl
        simp only [Prod.mk.injEq, Except.ok.injEq] at h
        obtain ⟨rfl, rfl⟩ := h
        exact ⟨ev1, ev2, ev3, stF, optResults, rfl, rfl, rfl, rfl, rfl⟩

/-- With an empty failed set the dependency scan is a no-op. -/
theorem updateFailed_no_failed {st : PipeState} (t : BuildTask)
    (h : st.failedTasks = []) :
    updateFailedDependencyTask st t = st := by
  unfold updateFailedDependencyTask
  simp [h]

/-- A main loop in which no component of any entry fails: every entry
produces a result, in queue order, with artifacts defined, and the failure
state stays empty. -/
theorem runMain_no_failures (gen : ArtifactGen) (reg : EnvsBuildContext) :
    ∀ (q : List QueueEntry) (i : Nat) (st : PipeState),
    st.failedTasks = [] → st.failedDependencyTask = none →
    (∀ e ∈ q, ∀ c ∈ e.task.executeResult.componentsResults, compFailing c = false) →
    ∀ ev stF rs, runMain gen reg i st q = (ev, Except.ok (stF, rs)) →
    List.Forall₂ (fun (o : Option TaskResults) (e : QueueEntry) =>
      ∃ res, o = some res ∧ res.task = e.task ∧ res.env = e.env ∧
        res.artifacts.isSome = true) rs q := by
  intro q
  induction q with
  | nil =>
    intro i st _ _ _ ev stF rs h
    simp only [runMain, Prod.mk.injEq, Except.ok.injEq] at h
    obtain ⟨-, -, rfl⟩ := h
    exact List.Forall₂.nil
  | cons e rest ih =>
    intro i st hft hfd hq ev stF rs h
    obtain ⟨ev0, st1, r, evs, rs1, hE, hR, rfl, rfl⟩ := runMain_cons_ok_inv h
    have hupd : updateFailedDependencyTask st e.task = st := updateFailed_no_failed e.task hft
    have hcause : (updateFailedDependencyTask st e.task).failedDependencyTask = none := by
      rw [hupd]
      exact hfd
    have hfilter : e.task.executeResult.componentsResults.filter compFailing = [] := by
      rw [List.filter_eq_nil_iff]
      intro c hc
      simp [hq e (List.mem_cons_self e rest) c hc]
    cases hreg : reg e.env.id with
    | none =>
      rw [executeTask_missing gen reg i st e hcause hreg] at hE
      exact absurd (congrArg Prod.snd hE) (by simp)
    | some ctx =>
      rw [executeTask_success gen reg i st e ctx hcause hreg hfilter] at hE
      simp only [Prod.mk.injEq, Except.ok.injEq] at hE
      obtain ⟨-, hst1, hr⟩ := hE
      have hihyp := ih (i + 1) st1 (by rw [← hst1, hupd]; exact hft)
        (by rw [← hst1, hupd]; exact hfd)
        (fun x hx => hq x (List.mem_cons_of_mem e hx)) evs stF rs1 hR
      refine List.Forall₂.cons ?_ hihyp
      exact ⟨_, hr.symm, rfl, rfl, rfl⟩

/-- A compacted result list whose entries each carry their queue entry's
task and environment is an order-preserving (possibly gappy) subsequence of
the queue. -/
theorem reduceOption_map_sublist :
    ∀ (rs : List (Option TaskResults)) (q : List QueueEntry),
    List.Forall₂ (fun (o : Option TaskResults) (e : QueueEntry) =>
      ∀ res, o = some res → res.task = e.task ∧ res.env = e.env ∧
        res.componentsResults = e.task.executeResult.componentsResults) rs q →
    List.Sublist (rs.reduceOption.map (fun r => (r.task, r.env)))
      (q.map (fun e => (e.task, e.env))) := by
  intro rs q h
  induction h with
  | nil => exact List.Sublist.refl []
  | cons hrel hrest ih =>
    rename_i o e rs' q'
    cases o with
    | none =>
      rw [List.reduceOption_cons_of_none]
      exact List.Sublist.cons _ ih
    | some res =>
      rw [List.reduceOption_cons_of_some]
      obtain ⟨ht, he, -⟩ := hrel res rfl
      simp only [List.map_cons, ht, he]
      exact List.Sublist.cons₂ _ ih

/-! ## Identifier codec lemmas -/

/-- Splitting a colon-free character list finds no name part. -/
theorem deserializeChars_no_colon :
    ∀ (a : List Char), ':' ∉ a → deserializeChars a = (a, none) := by
  intro a
  induction a with
  | nil => intro _; rfl
  | cons c cs ih =>
    intro h
    have hc : ¬c = ':' := fun hc => h (hc ▸ List.mem_cons_self c cs)
    have hcs : ':' ∉ cs := fun hm => h (List.mem_cons_of_mem c hm)
    unfold deserializeChars
    rw [if_neg hc, ih hcs]

/-- Splitting at the first colon recovers both halves when the left half is
colon-free. -/
theorem deserializeChars_split :
    ∀ (a n : List Char), ':' ∉ a → deserializeChars (a ++ ':' :: n) = (a, some n) := by
  intro a n
  induction a with
  | nil =>
    intro _
    simp [deserializeChars]
  | cons c cs ih =>
    intro h
    have hc : ¬c = ':' := fun hc => h (hc ▸ List.mem_cons_self c cs)
    have hcs : ':' ∉ cs := fun hm => h (List.mem_cons_of_mem c hm)
    rw [List.cons_append]
    unfold deserializeChars
    rw [if_neg hc, ih hcs]

/-- The codec round-trips on every valid identifier (aspect id and name free
of the reserved separator). -/
theorem deserialize_serialize (id : TaskId)
    (ha : ':' ∉ id.aspectId.data)
    (hn : ∀ n, id.name = some n → ':' ∉ n.data) :
    deserializeId (TaskId.serialize id) = id := by
  obtain ⟨a, name⟩ := id
  cases name with
  | none =>
    unfold TaskId.serialize deserializeId
    simp only
    rw [deserializeChars_no_colon a.data ha]
    rfl
  | some n =>
    unfold TaskId.serialize deserializeId
    simp only
    have hdata : (a ++ ":" ++ n).data = a.data ++ ':' :: n.data := by
      simp [show (":" : String).data = [':'] from rfl]
    rw [hdata, deserializeChars_split a.data n.data ha]
    simp only [Option.map_some]
    rfl

/-! ## Concrete fixtures for witnesses and counterexamples -/

/-- Artifact generator producing an empty component map. -/
def genNil : ArtifactGen := fun _ _ _ => []

/-- A registry holding exactly the environment `env1`. -/
def regOne : EnvsBuildContext := fun envId =>
  if envId = "env1" then some ⟨"env1"⟩ else none

/-- A task whose component result carries an error: it fails. -/
def taskFailA : BuildTask :=
  { aspectId := "aspA",
    executeResult := ⟨[⟨"comp1", some ["compile error"]⟩], none⟩ }

/-- A task depending first on the failed `aspA`, then on an aspect that
never fails: the second scan iteration overwrites the first match. -/
def taskDepLost : BuildTask :=
  { aspectId := "aspB", dependencies := some ["aspA", "other"],
    executeResult := ⟨[], none⟩ }

/-- A task depending only on `aspA`. -/
def taskDepA : BuildTask :=
  { aspectId := "aspC", dependencies := some ["aspA"],
    executeResult := ⟨[], none⟩ }

/-- A task that succeeds (its only component result has no `errors`). -/
def taskOk : BuildTask :=
  { aspectId := "aspD",
    executeResult := ⟨[⟨"comp1", none⟩], some ["artifact.js"]⟩ }

/-! ## Claim theorems -/

/-- C4: a queue entry is skipped (produces `null` instead of a
`TaskResults`) if and only if, after its own dependency scan at the moment
it is processed, a cascading-failure cause is recorded; and once a cause is
recorded it is never replaced for the remainder of the run. -/
theorem claim_C4 :
    (∀ (gen : ArtifactGen) (reg : EnvsBuildContext) (i : Nat) (st : PipeState)
       (e : QueueEntry) (ev : List Event) (st' : PipeState) (r : Option TaskResults),
      executeTask gen reg i st e = (ev, Except.ok (st', r)) →
      (r = none ↔ (updateFailedDependencyTask st e.task).failedDependencyTask.isSome = true)) ∧
    (∀ (gen : ArtifactGen) (reg : EnvsBuildContext) (q : List QueueEntry) (i : Nat)
       (st : PipeState) (c : BuildTask) (ev : List Event) (stF : PipeState)
       (rs : List (Option TaskResults)),
      st.failedDependencyTask = some c →
      runMain gen reg i st q = (ev, Except.ok (stF, rs)) →
      stF.failedDependencyTask = some c) := by
  constructor
  · intro gen reg i st e ev st' r h
    exact (executeTask_ok_inv h).2.2.2
  · intro gen reg q i st c ev stF rs hc h
    exact (runMain_ok_state gen reg q i st ev stF rs h).2 c hc

/-- Witness for C4 at a concrete run: processing `taskDepA` in a state where
`taskFailA` already failed records a cause and skips, and the recorded cause
survives a further main-loop step. -/
theorem claim_C4_witness :
    (executeTask genNil regOne 1 ⟨[taskFailA], none⟩ ⟨taskDepA, ⟨"env1"⟩⟩ =
      ([], Except.ok (⟨[taskFailA], some taskFailA⟩, none)) ∧
     (none : Option TaskResults) = none ∧
     (updateFailedDependencyTask ⟨[taskFailA], none⟩ taskDepA).failedDependencyTask.isSome = true) ∧
    (PipeState.failedDependencyTask ⟨[taskFailA], some taskFailA⟩ = some taskFailA ∧
     runMain genNil regOne 2 ⟨[taskFailA], some taskFailA⟩ [⟨taskOk, ⟨"env1"⟩⟩] =
       ([], Except.ok (⟨[taskFailA], some taskFailA⟩, [none])) ∧
     PipeState.failedDependencyTask ⟨[taskFailA], some taskFailA⟩ = some taskFailA) :=
  ⟨⟨rfl, (claim_C4.1 genNil regOne 1 ⟨[taskFailA], none⟩ ⟨taskDepA, ⟨"env1"⟩⟩ []
      ⟨[taskFailA], some taskFailA⟩ none rfl).mpr (by decide), by decide⟩,
   ⟨rfl, rfl,
    claim_C4.2 genNil regOne [⟨taskOk, ⟨"env1"⟩⟩] 2 ⟨[taskFailA], some taskFailA⟩
      taskFailA [] ⟨[taskFailA], some taskFailA⟩ [none] rfl rfl⟩⟩

/-- C8 counterexample: an entry whose environment id is absent from the
registry is processed while a cascading-failure cause is recorded; it is
skipped (no fatal error), so the context is not resolved before the skip
decision. -/
theorem claim_C8_cex :
    regOne "envX" = none ∧
    executeTask genNil regOne 1 ⟨[taskFailA], some taskFailA⟩ ⟨taskDepA, ⟨"envX"⟩⟩ =
      ([], Except.ok (⟨[taskFailA], some taskFailA⟩, none)) :=
  ⟨rfl, rfl⟩

/-- C8 amended: the main phase decides whether to skip before resolving the
build context — a skipped entry never touches the registry (so its missing
environment id goes undetected), while a non-skipped entry with a missing
environment id aborts fatally before its execute hook runs. -/
theorem claim_C8_amended (gen : ArtifactGen) (reg : EnvsBuildContext) (i : Nat)
    (st : PipeState) (e : QueueEntry) :
    ((updateFailedDependencyTask st e.task).failedDependencyTask.isSome = true →
      executeTask gen reg i st e =
        ([], Except.ok (updateFailedDependencyTask st e.task, none))) ∧
    ((updateFailedDependencyTask st e.task).failedDependencyTask = none →
      reg e.env.id = none →
      executeTask gen reg i st e =
        ([], Except.error ("unable to find buildContext for " ++ e.env.id))) :=
  ⟨fun h => executeTask_skip gen reg i st e h,
   fun h1 h2 => executeTask_missing gen reg i st e h1 h2⟩

/-- Witness for the amended C8, exercising both branches on concrete
entries. -/
theorem claim_C8_witness :
    ((updateFailedDependencyTask ⟨[taskFailA], some taskFailA⟩ taskDepA).failedDependencyTask.isSome = true ∧
     executeTask genNil regOne 3 ⟨[taskFailA], some taskFailA⟩ ⟨taskDepA, ⟨"envX"⟩⟩ =
       ([], Except.ok (updateFailedDependencyTask ⟨[taskFailA], some taskFailA⟩ taskDepA, none))) ∧
    ((updateFailedDependencyTask initState taskOk).failedDependencyTask = none ∧
     regOne "envX" = none ∧
     executeTask genNil regOne 0 initState ⟨taskOk, ⟨"envX"⟩⟩ =
       ([], Except.error ("unable to find buildContext for " ++ "envX"))) :=
  ⟨⟨by decide,
    (claim_C8_amended genNil regOne 3 ⟨[taskFailA], some taskFailA⟩ ⟨taskDepA, ⟨"envX"⟩⟩).1 (by decide)⟩,
   ⟨by decide, rfl,
    (claim_C8_amended genNil regOne 0 initState ⟨taskOk, ⟨"envX"⟩⟩).2 (by decide) rfl⟩⟩

/-- C9: the pre-build phase resolves the build context only for entries
whose task defines a `preBuild` hook — if every hook-bearing entry's
environment is registered, the phase succeeds even when other entries'
environments are missing; such a missing environment id is only detected in
the main phase, which aborts there. -/
theorem claim_C9 (reg : EnvsBuildContext) (q : List QueueEntry)
    (h : ∀ e ∈ q, e.task.hasPreBuild = true → reg e.env.id ≠ none) :
    (executePreBuild reg 0 q).2 = Except.ok () ∧
    (∀ (gen : ArtifactGen) (i : Nat) (st : PipeState) (e : QueueEntry)
       (rest : List QueueEntry),
      reg e.env.id = none →
      (updateFailedDependencyTask st e.task).failedDependencyTask = none →
      runMain gen reg i st (e :: rest) =
        ([], Except.error ("unable to find buildContext for " ++ e.env.id))) := by
  refine ⟨executePreBuild_ok reg q 0 h, ?_⟩
  intro gen i st e rest henv hns
  exact runMain_cons_error rest (executeTask_missing gen reg i st e hns henv)

/-- Witness for C9: a queue whose only entry has no `preBuild` hook and a
missing environment id — the pre-build phase still succeeds, and the main
phase aborts at that entry. -/
theorem claim_C9_witness :
    (∀ e ∈ [QueueEntry.mk taskOk ⟨"envX"⟩], e.task.hasPreBuild = true → regOne e.env.id ≠ none) ∧
    (executePreBuild regOne 0 [QueueEntry.mk taskOk ⟨"envX"⟩]).2 = Except.ok () ∧
    runMain genNil regOne 0 initState [QueueEntry.mk taskOk ⟨"envX"⟩] =
      ([], Except.error ("unable to find buildContext for " ++ "envX")) :=
  ⟨by decide,
   (claim_C9 regOne [QueueEntry.mk taskOk ⟨"envX"⟩] (by decide)).1,
   (claim_C9 regOne [QueueEntry.mk taskOk ⟨"envX"⟩] (by decide)).2 genNil 0 initState
     ⟨taskOk, ⟨"envX"⟩⟩ [] rfl (by decide)⟩

/-- The value the buggy scan actually records: the find result of the last
declared dependency alone (nothing when there is no dependency). -/
def lastDepCause (failed : List BuildTask) (deps : List String) : Option BuildTask :=
  match deps.getLast? with
  | none => none
  | some d => failed.find? (fun ft => depMatchesFailed d ft)

/-- The accumulator-ignoring fold of the dependency scan computes the last
dependency's find result (or keeps the initial value on no dependencies). -/
theorem scan_foldl_last (failed : List BuildTask) :
    ∀ (deps : List String) (init : Option BuildTask),
    deps.foldl (fun _ dep => failed.find? (fun ft => depMatchesFailed dep ft)) init =
      match deps.getLast? with
      | none => init
      | some d => failed.find? (fun ft => depMatchesFailed d ft) := by
  intro deps
  induction deps with
  | nil => intro init; rfl
  | cons a rest ih =>
    intro init
    rw [List.foldl_cons, ih _]
    cases rest with
    | nil => rfl
    | cons b rest2 =>
      rw [List.getLast?_cons_cons]
      have hsome : (b :: rest2).getLast?.isSome = true := by
        rw [List.getLast?_isSome]
        simp
      rcases Option.isSome_iff_exists.mp hsome with ⟨d, hd⟩
      rw [hd]

/-- C2 counterexample: with `taskFailA` failed and no cause recorded,
`taskDepLost` declares `["aspA", "other"]`; its first dependency matches the
failed task, yet after the scan no cause is recorded, because the second
iteration overwrote the match with the (empty) find result of `"other"`. -/
theorem claim_C2_cex :
    depMatchesFailed "aspA" taskFailA = true ∧
    taskDepLost.dependencies = some ["aspA", "other"] ∧
    PipeState.failedDependencyTask ⟨[taskFailA], none⟩ = none ∧
    List.length (PipeState.failedTasks ⟨[taskFailA], none⟩) ≠ 0 ∧
    (updateFailedDependencyTask ⟨[taskFailA], none⟩ taskDepLost).failedDependencyTask = none := by
  refine ⟨by decide, rfl, rfl, by decide, by decide⟩

/-- C2 amended: when no cause is recorded, at least one task has failed and
the task declares dependencies, the scan records the find result of the
LAST declared dependency alone — the first failed task (in discovery order)
matching it, or nothing when it matches none, earlier dependencies' matches
having been overwritten; a cause that is recorded is never replaced for the
remainder of the run. -/
theorem claim_C2_amended (st : PipeState) (task : BuildTask) (deps : List String)
    (h1 : st.failedDependencyTask = none) (h2 : st.failedTasks ≠ [])
    (h3 : task.dependencies = some deps) :
    ((updateFailedDependencyTask st task).failedDependencyTask =
      lastDepCause st.failedTasks deps) ∧
    (∀ (gen : ArtifactGen) (reg : EnvsBuildContext) (q : List QueueEntry) (i : Nat)
       (c : BuildTask) (ev : List Event) (stF : PipeState) (rs : List (Option TaskResults)),
      (updateFailedDependencyTask st task).failedDependencyTask = some c →
      runMain gen reg i (updateFailedDependencyTask st task) q = (ev, Except.ok (stF, rs)) →
      stF.failedDependencyTask = some c) := by
  constructor
  · unfold updateFailedDependencyTask
    rw [if_pos ⟨h1, h2, by rw [h3]; exact fun h => Option.noConfusion h⟩]
    simp only [h3, Option.getD_some, h1]
    rw [scan_foldl_last st.failedTasks deps none]
    unfold lastDepCause
    cases deps.getLast? <;> rfl
  · intro gen reg q i c ev stF rs hc h
    exact (runMain_ok_state gen reg q i (updateFailedDependencyTask st task) ev stF rs h).2 c hc

/-- Witness for the amended C2: with `taskFailA` failed, scanning
`taskDepLost` (last dependency `"other"`, which matches nothing) records no
cause, exactly the last dependency's find result. -/
theorem claim_C2_amended_witness :
    (PipeState.failedDependencyTask ⟨[taskFailA], none⟩ = none ∧
     PipeState.failedTasks ⟨[taskFailA], none⟩ ≠ [] ∧
     taskDepLost.dependencies = some ["aspA", "other"]) ∧
    (updateFailedDependencyTask ⟨[taskFailA], none⟩ taskDepLost).failedDependencyTask =
      lastDepCause [taskFailA] ["aspA", "other"] :=
  ⟨⟨rfl, by decide, rfl⟩,
   (claim_C2_amended ⟨[taskFailA], none⟩ taskDepLost ["aspA", "other"] rfl (by decide) rfl).1⟩

/-- C10: a component result with an absent `errors` field is classified
exactly like one with an empty `errors` list — neither makes the predicate
fire — and a task all of whose component results have absent-or-empty
errors executes the success branch: it is not added to the failed set and
its artifacts are generated. -/
theorem claim_C10 :
    (∀ cid : String, compFailing ⟨cid, none⟩ = false ∧ compFailing ⟨cid, some []⟩ = false) ∧
    (∀ (gen : ArtifactGen) (reg : EnvsBuildContext) (i : Nat) (st : PipeState)
       (e : QueueEntry) (ctx : BuildContext),
      reg e.env.id = some ctx →
      (updateFailedDependencyTask st e.task).failedDependencyTask = none →
      (∀ c ∈ e.task.executeResult.componentsResults, c.errors = none ∨ c.errors = some []) →
      executeTask gen reg i st e =
        ([Event.executeHook i, Event.generateCall i],
          Except.ok (updateFailedDependencyTask st e.task,
            some { task := e.task, env := e.env,
                   componentsResults := e.task.executeResult.componentsResults,
                   artifacts := some (gen ctx (e.task.executeResult.artifacts.getD []) e.task),
                   startTime := 0, endTime := 0 }))) := by
  constructor
  · intro cid
    exact ⟨rfl, rfl⟩
  · intro gen reg i st e ctx hctx hns herr
    have hfilter : e.task.executeResult.componentsResults.filter compFailing = [] := by
      rw [List.filter_eq_nil_iff]
      intro c hc
      rcases herr c hc with h | h <;> simp [compFailing, h]
    exact executeTask_success gen reg i st e ctx hns hctx hfilter

/-- Witness for C10: `taskOk`'s single component result has `errors`
absent, and its execution succeeds with artifacts generated. -/
theorem claim_C10_witness :
    (compFailing ⟨"comp1", none⟩ = false ∧ compFailing ⟨"comp1", some []⟩ = false) ∧
    (regOne "env1" = some ⟨"env1"⟩ ∧
     (updateFailedDependencyTask initState taskOk).failedDependencyTask = none ∧
     executeTask genNil regOne 0 initState ⟨taskOk, ⟨"env1"⟩⟩ =
       ([Event.executeHook 0, Event.generateCall 0],
         Except.ok (updateFailedDependencyTask initState taskOk,
           some { task := taskOk, env := ⟨"env1"⟩,
                  componentsResults := taskOk.executeResult.componentsResults,
                  artifacts := some (genNil ⟨"env1"⟩ (taskOk.executeResult.artifacts.getD []) taskOk),
                  startTime := 0, endTime := 0 }))) :=
  ⟨claim_C10.1 "comp1",
   ⟨rfl, by decide,
    claim_C10.2 genNil regOne 0 initState ⟨taskOk, ⟨"env1"⟩⟩ ⟨"env1"⟩ rfl (by decide)
      (by decide)⟩⟩

/-- A failed task carrying a name, for exercising the matching rule. -/
def taskNamed : BuildTask :=
  { aspectId := "aspA", name := some "lint",
    executeResult := ⟨[⟨"comp1", some ["lint error"]⟩], none⟩ }

/-- C6: on valid identifiers (separator-free, non-empty name when present),
a serialized dependency matches a failed task iff the deserialized owner id
equals the failed task's owner id exactly and, when a name is specified, the
failed task's name equals it exactly; a nameless dependency matches any
failed task with that owner id. -/
theorem claim_C6 (id : TaskId) (ft : BuildTask)
    (ha : ':' ∉ id.aspectId.data)
    (hn : ∀ n, id.name = some n → ':' ∉ n.data ∧ n ≠ "") :
    depMatchesFailed (TaskId.serialize id) ft = true ↔
      (id.aspectId = ft.aspectId ∧ ∀ n, id.name = some n → ft.name = some n) := by
  have hround : deserializeId (TaskId.serialize id) = id :=
    deserialize_serialize id ha (fun n h => (hn n h).1)
  unfold depMatchesFailed
  rw [hround]
  obtain ⟨a, nm⟩ := id
  cases nm with
  | none => simp
  | some n =>
    have hne : (n != "") = true := bne_iff_ne.mpr (hn n rfl).2
    simp only [hne, Bool.true_and]
    by_cases hftn : ft.name = some n
    · rw [hftn]
      simp
    · have hbne : ((some n : Option String) != ft.name) = true := by
        rw [bne_iff_ne]
        intro hcontra
        exact hftn hcontra.symm
      rw [hbne]
      simp only [if_true]
      constructor
      · intro hfalse
        exact absurd hfalse (by simp)
      · rintro ⟨-, h⟩
        exact absurd (h n rfl) hftn

/-- Witness for C6: the named identifier `aspA:lint` matches the failed
`taskNamed` (same owner id, same name). -/
theorem claim_C6_witness :
    (':' ∉ ("aspA" : String).data) ∧
    (depMatchesFailed (TaskId.serialize ⟨"aspA", some "lint"⟩) taskNamed = true ↔
      (TaskId.aspectId ⟨"aspA", some "lint"⟩ = taskNamed.aspectId ∧
       ∀ n, TaskId.name ⟨"aspA", some "lint"⟩ = some n → taskNamed.name = some n)) :=
  ⟨by decide,
   claim_C6 ⟨"aspA", some "lint"⟩ taskNamed (by decide)
     (fun n h => Option.some.inj h ▸
       (⟨by decide, by decide⟩ : ':' ∉ ("lint" : String).data ∧ ("lint" : String) ≠ ""))⟩

/-- The failing-component predicate is false exactly when the `errors`
field is absent or holds an empty sequence. -/
theorem compFailing_eq_false_iff (c : ComponentResult) :
    compFailing c = false ↔ ∀ errs, c.errors = some errs → errs = [] := by
  unfold compFailing
  cases hc : c.errors with
  | none => simp
  | some l => simp [List.length_eq_zero]

/-- C1: when no entry's execute result carries a component with a non-empty
error sequence, a completed `execute()` returns one result per queue entry,
in the original queue order, each with artifacts defined. -/
theorem claim_C1 (gen : ArtifactGen) (reg : EnvsBuildContext) (queue : List QueueEntry)
    (ev : List Event) (results : List TaskResults)
    (hok : execute gen reg queue = (ev, Except.ok results))
    (hnf : ∀ e ∈ queue, ∀ c ∈ e.task.executeResult.componentsResults,
      ∀ errs, c.errors = some errs → errs = []) :
    results.length = queue.length ∧
    results.map (fun r => (r.task, r.env)) = queue.map (fun e => (e.task, e.env)) ∧
    ∀ r ∈ results, r.artifacts.isSome = true := by
  obtain ⟨ev1, ev2, ev3, stF, optRs, -, hrm, -, rfl, -⟩ := execute_ok_inv hok
  have hnf' : ∀ e ∈ queue, ∀ c ∈ e.task.executeResult.componentsResults,
      compFailing c = false :=
    fun e he c hc => (compFailing_eq_false_iff c).mpr (hnf e he c hc)
  have hf2 := runMain_no_failures gen reg queue 0 initState rfl rfl hnf' ev2 stF optRs hrm
  clear hok hrm hnf hnf'
  induction hf2 with
  | nil => exact ⟨rfl, rfl, by simp⟩
  | cons hrel hrest ih =>
    rename_i o e rs' q'
    obtain ⟨res, rfl, ht, he, hart⟩ := hrel
    obtain ⟨ih1, ih2, ih3⟩ := ih
    rw [List.reduceOption_cons_of_some]
    refine ⟨?_, ?_, ?_⟩
    · simp [ih1]
    · simp only [List.map_cons, ht, he, ih2]
    · intro r hr
      rcases List.mem_cons.mp hr with rfl | hmem
      · exact hart
      · exact ih3 r hmem

/-- The result record of a successful solo run of `taskOk`. -/
def resOkTask : TaskResults :=
  { task := taskOk, env := ⟨"env1"⟩, componentsResults := [⟨"comp1", none⟩],
    artifacts := some [], startTime := 0, endTime := 0 }

/-- Witness for C1 on a one-entry queue with no failures. -/
theorem claim_C1_witness :
    (execute genNil regOne [⟨taskOk, ⟨"env1"⟩⟩] =
       ([Event.executeHook 0, Event.generateCall 0], Except.ok [resOkTask])) ∧
    ([resOkTask].length = [QueueEntry.mk taskOk ⟨"env1"⟩].length ∧
     [resOkTask].map (fun r => (r.task, r.env)) =
       [QueueEntry.mk taskOk ⟨"env1"⟩].map (fun e => (e.task, e.env)) ∧
     ∀ r ∈ [resOkTask], r.artifacts.isSome = true) :=
  ⟨rfl,
   claim_C1 genNil regOne [⟨taskOk, ⟨"env1"⟩⟩]
     [Event.executeHook 0, Event.generateCall 0] [resOkTask] rfl
     (by
       intro e he c hc errs herrs
       rw [List.mem_singleton] at he
       subst he
       simp [taskOk] at hc
       subst hc
       simp at herrs)⟩

/-- Per-result facts of one `executeTask` step: artifacts are defined iff no
component failed, and an artifact-less result means the task joined the
failed set and the generator was not called. -/
theorem executeTask_result_facts {gen : ArtifactGen} {reg : EnvsBuildContext}
    {i : Nat} {st : PipeState} {e : QueueEntry} {ev : List Event}
    {st' : PipeState} {r : Option TaskResults}
    (h : executeTask gen reg i st e = (ev, Except.ok (st', r))) :
    ∀ res, r = some res →
      (res.artifacts.isSome = true ↔ res.componentsResults.filter compFailing = []) ∧
      (res.artifacts = none → res.task ∈ st'.failedTasks ∧ Event.generateCall i ∉ ev) := by
  intro res hres
  by_cases h1 : (updateFailedDependencyTask st e.task).failedDependencyTask.isSome
  · rw [executeTask_skip gen reg i st e h1] at h
    simp only [Prod.mk.injEq, Except.ok.injEq] at h
    obtain ⟨-, -, rfl⟩ := h
    exact absurd hres (by simp)
  · rw [Option.not_isSome_iff_eq_none] at h1
    cases hreg : reg e.env.id with
    | none =>
      rw [executeTask_missing gen reg i st e h1 hreg] at h
      exact absurd (congrArg Prod.snd h) (by simp)
    | some ctx =>
      by_cases h3 : e.task.executeResult.componentsResults.filter compFailing = []
      · rw [executeTask_success gen reg i st e ctx h1 hreg h3] at h
        simp only [Prod.mk.injEq, Except.ok.injEq] at h
        obtain ⟨rfl, rfl, rfl⟩ := h
        cases Option.some.inj hres
        constructor
        · simpa using h3
        · intro habs
          exact absurd habs (by simp)
      · rw [executeTask_fail gen reg i st e ctx h1 hreg h3] at h
        simp only [Prod.mk.injEq, Except.ok.injEq] at h
        obtain ⟨rfl, rfl, rfl⟩ := h
        cases Option.some.inj hres
        constructor
        · simpa using h3
        · intro _
          refine ⟨?_, by simp⟩
          exact List.mem_append_right _ (List.mem_singleton.mpr rfl)

/-- Along a successful main loop, every produced result has artifacts
defined iff none of its component results failed. -/
theorem runMain_artifacts_iff (gen : ArtifactGen) (reg : EnvsBuildContext) :
    ∀ (q : List QueueEntry) (i : Nat) (st : PipeState) (ev : List Event)
      (stF : PipeState) (rs : List (Option TaskResults)),
    runMain gen reg i st q = (ev, Except.ok (stF, rs)) →
    ∀ o ∈ rs, ∀ r, o = some r →
      (r.artifacts.isSome = true ↔ r.componentsResults.filter compFailing = []) := by
  intro q
  induction q with
  | nil =>
    intro i st ev stF rs h
    simp only [runMain, Prod.mk.injEq, Except.ok.injEq] at h
    obtain ⟨-, -, rfl⟩ := h
    intro o ho
    exact absurd ho (by simp)
  | cons e rest ih =>
    intro i st ev stF rs h
    obtain ⟨ev0, st1, r0, evs, rs1, hE, hR, rfl, rfl⟩ := runMain_cons_ok_inv h
    intro o ho r hor
    rcases List.mem_cons.mp ho with rfl | hmem
    · exact (executeTask_result_facts hE r hor).1
    · exact ih (i + 1) st1 evs stF rs1 hR o hmem r hor

/-- Along a successful main loop, a produced result without artifacts means
its task is in the final failed set and no generator call was emitted for
that queue position. -/
theorem runMain_failed_facts (gen : ArtifactGen) (reg : EnvsBuildContext) :
    ∀ (q : List QueueEntry) (i : Nat) (st : PipeState) (ev : List Event)
      (stF : PipeState) (rs : List (Option TaskResults)),
    runMain gen reg i st q = (ev, Except.ok (stF, rs)) →
    ∀ k r, rs[k]? = some (some r) → r.artifacts = none →
      r.task ∈ stF.failedTasks ∧ Event.generateCall (i + k) ∉ ev := by
  intro q
  induction q with
  | nil =>
    intro i st ev stF rs h k r hk _
    simp only [runMain, Prod.mk.injEq, Except.ok.injEq] at h
    obtain ⟨-, -, rfl⟩ := h
    simp at hk
  | cons e rest ih =>
    intro i st ev stF rs h k r hk hart
    obtain ⟨ev0, st1, r0, evs, rs1, hE, hR, rfl, rfl⟩ := runMain_cons_ok_inv h
    cases k with
    | zero =>
      rw [List.getElem?_cons_zero] at hk
      obtain ⟨hmemF, hnogen⟩ := (executeTask_result_facts hE r (Option.some.inj hk)).2 hart
      refine ⟨(runMain_ok_state gen reg rest (i + 1) st1 evs stF rs1 hR).1 _ hmemF, ?_⟩
      rw [Nat.add_zero]
      intro hmem
      rcases List.mem_append.mp hmem with h0 | h1
      · exact hnogen h0
      · have hb := runMain_event_idx gen reg rest (i + 1) st1 _ (by rw [hR]; exact h1)
        simp [Event.idx] at hb
    | succ k2 =>
      rw [List.getElem?_cons_succ] at hk
      obtain ⟨hmemF, hnogen⟩ := ih (i + 1) st1 evs stF rs1 hR k2 r hk hart
      refine ⟨hmemF, ?_⟩
      intro hmem
      rcases List.mem_append.mp hmem with h0 | h1
      · have hb := executeTask_event_idx gen reg i st e _ (by rw [hE]; exact h0)
        simp [Event.idx] at hb
      · have harith : i + (k2 + 1) = i + 1 + k2 := by omega
        rw [harith] at h1
        exact hnogen h1

/-- The component filter of `executeTask` is empty exactly when every
component's error sequence is absent or empty. -/
theorem filter_compFailing_nil_iff (l : List ComponentResult) :
    l.filter compFailing = [] ↔
      ∀ c ∈ l, ∀ errs, c.errors = some errs → errs = [] := by
  rw [List.filter_eq_nil_iff]
  constructor
  · intro h c hc errs herrs
    have hcf : compFailing c = false := Bool.eq_false_iff.mpr (h c hc)
    exact (compFailing_eq_false_iff c).mp hcf errs herrs
  · intro h c hc
    have hcf : compFailing c = false := (compFailing_eq_false_iff c).mpr (h c hc)
    simp [hcf]

/-- C3: in a completed run, every returned `TaskResults` has `artifacts`
defined iff its `componentsResults` holds no entry with a non-empty error
sequence; and an artifact-less result's task was added to the failed set
while no artifact-generator call was made for its queue position. -/
theorem claim_C3 :
    (∀ (gen : ArtifactGen) (reg : EnvsBuildContext) (queue : List QueueEntry)
       (ev : List Event) (results : List TaskResults),
      execute gen reg queue = (ev, Except.ok results) →
      ∀ r ∈ results,
        (r.artifacts.isSome = true ↔
          ∀ c ∈ r.componentsResults, ∀ errs, c.errors = some errs → errs = [])) ∧
    (∀ (gen : ArtifactGen) (reg : EnvsBuildContext) (q : List QueueEntry) (i : Nat)
       (st : PipeState) (ev : List Event) (stF : PipeState)
       (rs : List (Option TaskResults)),
      runMain gen reg i st q = (ev, Except.ok (stF, rs)) →
      ∀ k r, rs[k]? = some (some r) → r.artifacts = none →
        r.task ∈ stF.failedTasks ∧ Event.generateCall (i + k) ∉ ev) := by
  constructor
  · intro gen reg queue ev results hok r hr
    obtain ⟨ev1, ev2, ev3, stF, optRs, -, hrm, -, rfl, -⟩ := execute_ok_inv hok
    have hmem : some r ∈ optRs := List.reduceOption_mem_iff.mp hr
    have hiff := runMain_artifacts_iff gen reg queue 0 initState ev2 stF optRs hrm
      (some r) hmem r rfl
    rw [hiff]
    exact filter_compFailing_nil_iff r.componentsResults
  · intro gen reg q i st ev stF rs h k r hk hart
    exact runMain_failed_facts gen reg q i st ev stF rs h k r hk hart

/-- The result record of the failing `taskFailA`. -/
def resFailA : TaskResults :=
  { task := taskFailA, env := ⟨"env1"⟩,
    componentsResults := [⟨"comp1", some ["compile error"]⟩],
    artifacts := none, startTime := 0, endTime := 0 }

/-- Witness for C3 on a one-entry failing run: artifacts are undefined, the
task is in the failed set and no generator call was emitted. -/
theorem claim_C3_witness :
    (execute genNil regOne [⟨taskFailA, ⟨"env1"⟩⟩] =
       ([Event.executeHook 0], Except.ok [resFailA]) ∧
     (resFailA.artifacts.isSome = true ↔
       ∀ c ∈ resFailA.componentsResults, ∀ errs, c.errors = some errs → errs = [])) ∧
    (runMain genNil regOne 0 initState [⟨taskFailA, ⟨"env1"⟩⟩] =
       ([Event.executeHook 0], Except.ok (⟨[taskFailA], none⟩, [some resFailA])) ∧
     resFailA.task ∈ PipeState.failedTasks ⟨[taskFailA], none⟩ ∧
     Event.generateCall (0 + 0) ∉ [Event.executeHook 0]) :=
  ⟨⟨rfl,
    claim_C3.1 genNil regOne [⟨taskFailA, ⟨"env1"⟩⟩] [Event.executeHook 0] [resFailA]
      rfl resFailA (List.mem_singleton.mpr rfl)⟩,
   ⟨rfl,
    claim_C3.2 genNil regOne [⟨taskFailA, ⟨"env1"⟩⟩] 0 initState [Event.executeHook 0]
      ⟨[taskFailA], none⟩ [some resFailA] rfl 0 resFailA rfl rfl⟩⟩

/-- C5: no `TaskResults` is produced for a skipped entry — the returned
list is the compaction of the per-entry results, its length is the queue
length minus the number of skipped (null) entries, and its order is a
(possibly gappy) subsequence of the queue order. -/
theorem claim_C5 (gen : ArtifactGen) (reg : EnvsBuildContext) (queue : List QueueEntry)
    (ev evm : List Event) (results : List TaskResults) (stF : PipeState)
    (optRs : List (Option TaskResults))
    (hok : execute gen reg queue = (ev, Except.ok results))
    (hrm : runMain gen reg 0 initState queue = (evm, Except.ok (stF, optRs))) :
    results = optRs.reduceOption ∧
    optRs.length = queue.length ∧
    results.length = queue.length - (optRs.filter Option.isNone).length ∧
    List.Sublist (results.map (fun r => (r.task, r.env)))
      (queue.map (fun e => (e.task, e.env))) := by
  obtain ⟨ev1, ev2, ev3, stF2, optRs2, -, hrm2, -, rfl, -⟩ := execute_ok_inv hok
  rw [hrm] at hrm2
  simp only [Prod.mk.injEq, Except.ok.injEq] at hrm2
  obtain ⟨-, -, rfl⟩ := hrm2
  have hent := runMain_ok_entries gen reg queue 0 initState evm stF optRs hrm
  refine ⟨rfl, hent.length_eq, ?_, reduceOption_map_sublist optRs queue hent⟩
  have hlen := List.length_eq_reduceOption_length_add_filter_none (l := optRs)
  have hql := hent.length_eq
  omega

/-- Witness for C5 on a three-entry run in which the third entry is
skipped after the first fails. -/
theorem claim_C5_witness :
    (execute genNil regOne
        [⟨taskFailA, ⟨"env1"⟩⟩, ⟨taskOk, ⟨"env1"⟩⟩, ⟨taskDepA, ⟨"env1"⟩⟩] =
      ([Event.executeHook 0, Event.executeHook 1, Event.generateCall 1],
        Except.ok [resFailA, resOkTask]) ∧
     runMain genNil regOne 0 initState
        [⟨taskFailA, ⟨"env1"⟩⟩, ⟨taskOk, ⟨"env1"⟩⟩, ⟨taskDepA, ⟨"env1"⟩⟩] =
      ([Event.executeHook 0, Event.executeHook 1, Event.generateCall 1],
        Except.ok (⟨[taskFailA], some taskFailA⟩,
          [some resFailA, some resOkTask, none]))) ∧
    ([resFailA, resOkTask] = [some resFailA, some resOkTask, none].reduceOption ∧
     [some resFailA, some resOkTask, (none : Option TaskResults)].length =
       [QueueEntry.mk taskFailA ⟨"env1"⟩, ⟨taskOk, ⟨"env1"⟩⟩, ⟨taskDepA, ⟨"env1"⟩⟩].length ∧
     [resFailA, resOkTask].length =
       [QueueEntry.mk taskFailA ⟨"env1"⟩, ⟨taskOk, ⟨"env1"⟩⟩, ⟨taskDepA, ⟨"env1"⟩⟩].length -
         ([some resFailA, some resOkTask, (none : Option TaskResults)].filter Option.isNone).length ∧
     List.Sublist ([resFailA, resOkTask].map (fun r => (r.task, r.env)))
       ([QueueEntry.mk taskFailA ⟨"env1"⟩, ⟨taskOk, ⟨"env1"⟩⟩, ⟨taskDepA, ⟨"env1"⟩⟩].map
         (fun e => (e.task, e.env)))) :=
  ⟨⟨rfl, rfl⟩,
   claim_C5 genNil regOne
     [⟨taskFailA, ⟨"env1"⟩⟩, ⟨taskOk, ⟨"env1"⟩⟩, ⟨taskDepA, ⟨"env1"⟩⟩]
     [Event.executeHook 0, Event.executeHook 1, Event.generateCall 1]
     [Event.executeHook 0, Event.executeHook 1, Event.generateCall 1]
     [resFailA, resOkTask] ⟨[taskFailA], some taskFailA⟩
     [some resFailA, some resOkTask, none] rfl rfl⟩

/-- The queue refuting C7: `taskFailA` fails in `env1`; `taskDepA` (which
depends on it) sits in the unregistered environment `envX`. -/
def queueC7 : List QueueEntry := [⟨taskFailA, ⟨"env1"⟩⟩, ⟨taskDepA, ⟨"envX"⟩⟩]

/-- C7 counterexample: `queueC7` contains an entry whose environment id is
absent from the registry, yet `execute()` completes without any fatal
error — the entry was skipped before its context lookup. -/
theorem claim_C7_cex :
    regOne "envX" = none ∧
    execute genNil regOne queueC7 = ([Event.executeHook 0], Except.ok [resFailA]) :=
  ⟨rfl, rfl⟩

/-- A task defining only a `preBuild` hook. -/
def taskPre : BuildTask :=
  { aspectId := "aspP", hasPreBuild := true, executeResult := ⟨[], none⟩ }

/-- A hook-less task that succeeds with no component results. -/
def taskPlain : BuildTask :=
  { aspectId := "aspE", executeResult := ⟨[], none⟩ }

/-- C7 amended: when the entry with the missing environment id is reached
by the main phase without a recorded cascading-failure cause (it is not
skipped), `execute()` aborts with the fatal lookup error, and no execute
hook of that entry or of any later entry has run — though the pre-build
hooks of all entries ran earlier, and a skipped entry's missing environment
id raises no error at all. -/
theorem claim_C7_amended (gen : ArtifactGen) (reg : EnvsBuildContext)
    (pre rest : List QueueEntry) (e : QueueEntry) (evB evP : List Event)
    (stP : PipeState) (rsP : List (Option TaskResults))
    (hpre : executePreBuild reg 0 (pre ++ e :: rest) = (evB, Except.ok ()))
    (hmain : runMain gen reg 0 initState pre = (evP, Except.ok (stP, rsP)))
    (henv : reg e.env.id = none)
    (hnoskip : (updateFailedDependencyTask stP e.task).failedDependencyTask = none) :
    execute gen reg (pre ++ e :: rest) =
      (evB ++ evP, Except.error ("unable to find buildContext for " ++ e.env.id)) ∧
    ∀ j, pre.length ≤ j → Event.executeHook j ∉ evB ++ evP := by
  have hstep : executeTask gen reg (0 + pre.length) stP e =
      ([], Except.error ("unable to find buildContext for " ++ e.env.id)) :=
    executeTask_missing gen reg (0 + pre.length) stP e hnoskip henv
  have htail : runMain gen reg (0 + pre.length) stP (e :: rest) =
      ([], Except.error ("unable to find buildContext for " ++ e.env.id)) :=
    runMain_cons_error rest hstep
  have hfull : runMain gen reg 0 initState (pre ++ e :: rest) =
      (evP, Except.error ("unable to find buildContext for " ++ e.env.id)) :=
    runMain_append_error gen reg pre (e :: rest) 0 initState evP stP rsP _ hmain htail
  constructor
  · unfold execute
    rw [hpre]
    dsimp only
    rw [hfull]
  · intro j hj hmem
    rcases List.mem_append.mp hmem with hB | hP
    · obtain ⟨j2, hj2⟩ := executePreBuild_events reg (pre ++ e :: rest) 0
        (Event.executeHook j) (by rw [hpre]; exact hB)
      exact Event.noConfusion hj2
    · have hb := runMain_event_idx gen reg pre 0 initState (Event.executeHook j)
        (by rw [hmain]; exact hP)
      simp [Event.idx] at hb
      omega

/-- The result record of a successful solo run of `taskPre`. -/
def resPre : TaskResults :=
  { task := taskPre, env := ⟨"env1"⟩, componentsResults := [],
    artifacts := some [], startTime := 0, endTime := 0 }

/-- Witness for the amended C7: the pre-build phase ran the first entry's
hook, then the main phase aborts at the second entry's missing environment
before its execute hook. -/
theorem claim_C7_amended_witness :
    (executePreBuild regOne 0 [⟨taskPre, ⟨"env1"⟩⟩, ⟨taskPlain, ⟨"envX"⟩⟩] =
       ([Event.preBuildHook 0], Except.ok ()) ∧
     runMain genNil regOne 0 initState [⟨taskPre, ⟨"env1"⟩⟩] =
       ([Event.executeHook 0, Event.generateCall 0],
         Except.ok (⟨[], none⟩, [some resPre])) ∧
     regOne "envX" = none) ∧
    execute genNil regOne [⟨taskPre, ⟨"env1"⟩⟩, ⟨taskPlain, ⟨"envX"⟩⟩] =
      ([Event.preBuildHook 0] ++ [Event.executeHook 0, Event.generateCall 0],
        Except.error ("unable to find buildContext for " ++ "envX")) :=
  ⟨⟨rfl, rfl, rfl⟩,
   (claim_C7_amended genNil regOne [⟨taskPre, ⟨"env1"⟩⟩] [] ⟨taskPlain, ⟨"envX"⟩⟩
     [Event.preBuildHook 0] [Event.executeHook 0, Event.generateCall 0]
     ⟨[], none⟩ [some resPre] rfl rfl rfl (by decide)).1⟩

end BuildPipe
